import Mathlib

/-!
Shallow embedding of the peer-mesh connection coordinator implemented by
`WebRTCManager` in `src/lib/webrtc.ts`, together with theorems settling the
specification claims about it.

Modelling conventions:
* The four private fields of the class (`peerConnections`, `dataChannels`,
  `participants`, `clientId`) become the `Manager` record.  JS `Map`s become
  association lists with `mapGet`/`mapSet`/`mapDelete`/`mapHas` mirroring the
  JS `Map` API (`set` replaces in place, `delete` removes the key).
* Browser objects (`RTCPeerConnection`, `RTCDataChannel`) are modelled with
  exactly the fields the source observes or mutates; session descriptions and
  ICE candidates are opaque strings.
* Handlers are total Lean functions from a `Manager` state to a new state,
  paired with the list of outbound `socket.emit("signal", ...)` events they
  produce.  A handler that cannot throw on a given path is a plain function;
  `sendFile`, which can throw synchronously, returns `Except`.
* `setTimeout` bodies are modelled as separate functions (the task that fires
  later); the scheduling handler returns the list of tasks it scheduled.
-/

namespace Echo

/-- Readiness state of an `RTCDataChannel` (`readyState`). -/
inductive DCState
  | Connecting
  | Open
  | Closing
  | Closed
deriving DecidableEq, Repr

/-- Connection state of an `RTCPeerConnection` (`connectionState`). -/
inductive ConnState
  | New
  | Connecting
  | Connected
  | Disconnected
  | Failed
  | Closed
deriving DecidableEq, Repr

/-- Session descriptions (SDP offers/answers) are opaque to the manager. -/
abbrev SessionDesc := String

/-- ICE candidates are opaque to the manager. -/
abbrev Candidate := String

/-- The slice of a browser `RTCPeerConnection` that `webrtc.ts` observes or
mutates: the two descriptions, the candidates passed to `addIceCandidate`
(in call order), the connection state, and whether `close()` was called. -/
structure RTCPeerConnection where
  localDescription : Option SessionDesc
  remoteDescription : Option SessionDesc
  addedCandidates : List Candidate
  connectionState : ConnState
  closed : Bool
deriving DecidableEq, Repr

/-- The slice of a browser `RTCDataChannel` that `webrtc.ts` observes. -/
structure RTCDataChannel where
  label : String
  ordered : Bool
  readyState : DCState
deriving DecidableEq, Repr

/-- The `Participant` interface of `src/lib/webrtc.ts` (the optional
`stream` is an opaque stream identifier here). -/
structure Participant where
  clientId : String
  displayName : String
  isConnected : Bool
  stream : Option String
deriving DecidableEq, Repr

/-- JS `Map.get`: value stored under the first binding of the key, if any. -/
def mapGet (m : List (String × α)) (k : String) : Option α :=
  match m with
  | [] => none
  | p :: rest => if p.1 = k then some p.2 else mapGet rest k

/-- JS `Map.has`. -/
def mapHas (m : List (String × α)) (k : String) : Bool :=
  (mapGet m k).isSome

/-- JS `Map.set`: replaces the value in place when the key is present,
otherwise appends the new binding at the end. -/
def mapSet (m : List (String × α)) (k : String) (v : α) : List (String × α) :=
  match m with
  | [] => [(k, v)]
  | p :: rest => if p.1 = k then (k, v) :: rest else p :: mapSet rest k v

/-- JS `Map.delete`: removes every binding of the key. -/
def mapDelete (m : List (String × α)) (k : String) : List (String × α) :=
  m.filter (fun p => decide (p.1 ≠ k))

/-- Number of bindings stored under a key (a JS `Map` keeps at most one;
the association-list model lets us state that as a provable invariant). -/
def countKey (m : List (String × α)) (k : String) : Nat :=
  (m.filter (fun p => decide (p.1 = k))).length

/-- State of one `WebRTCManager`: its private tables and the local id. -/
structure Manager where
  clientId : String
  peerConnections : List (String × RTCPeerConnection)
  dataChannels : List (String × RTCDataChannel)
  participants : List (String × Participant)
deriving DecidableEq, Repr

/-- An outbound `socket.emit("signal", ...)` event; `sendTo` models the JS
property named `to` (a reserved word in Lean). -/
structure OutSignal where
  sendTo : String
  signal : String
deriving DecidableEq, Repr

/-- Fresh `RTCPeerConnection` as constructed at lines 165-178 of the source
(the fixed ICE-server configuration is opaque to the state model). -/
def newPeerConnection : RTCPeerConnection :=
  { localDescription := none, remoteDescription := none, addedCandidates := [],
    connectionState := ConnState.New, closed := false }

/-- Fresh channel from `pc.createDataChannel("fileTransfer", ordered: true)`. -/
def newDataChannel : RTCDataChannel :=
  { label := "fileTransfer", ordered := true, readyState := DCState.Connecting }

/-- `createPeerConnection` (source lines 157-252): a no-op when an entry for
`remoteClientId` already exists; otherwise it stores a fresh connection and,
as initiator, also creates the data channel, sets a local offer and relays it
to the remote id.  (`ontrack` / `onicecandidate` / `ondatachannel` are
event-driven callbacks and are modelled where the claims need them.) -/
def createPeerConnection (st : Manager) (remoteClientId : String) (isInitiator : Bool) :
    Manager × List OutSignal :=
  if mapHas st.peerConnections remoteClientId then (st, [])
  else
    let pc := newPeerConnection
    let st1 : Manager :=
      { st with peerConnections := mapSet st.peerConnections remoteClientId pc }
    if isInitiator then
      let st2 : Manager :=
        { st1 with dataChannels := mapSet st1.dataChannels remoteClientId newDataChannel }
      let pc2 : RTCPeerConnection := { pc with localDescription := some "offer" }
      let st3 : Manager :=
        { st2 with peerConnections := mapSet st2.peerConnections remoteClientId pc2 }
      (st3, [{ sendTo := remoteClientId, signal := "offer" }])
    else (st1, [])

/-- Body of the `setTimeout(..., 1000)` scheduled by the `user-joined`
handler (source lines 49-53): recheck absence at fire time, then connect. -/
def delayedJoinConnect (st : Manager) (clientId : String) : Manager × List OutSignal :=
  if mapHas st.peerConnections clientId then (st, [])
  else createPeerConnection st clientId true

/-- Body of the `setTimeout(..., 500)` scheduled by the `participants-list`
handler (source lines 86-91): recheck absence and participant presence at
fire time, then connect. -/
def delayedRosterConnect (st : Manager) (clientId : String) : Manager × List OutSignal :=
  if !(mapHas st.peerConnections clientId) && mapHas st.participants clientId then
    createPeerConnection st clientId true
  else (st, [])

/-- The two kinds of delayed connect task that can race for the same remote
id: one scheduled by a `user-joined` event, one by a roster snapshot. -/
inductive ConnectTrigger
  | join
  | roster
deriving DecidableEq, Repr

/-- Fire one delayed connect task for `id` (state effect only). -/
def fireTrigger (id : String) (st : Manager) : ConnectTrigger → Manager
  | ConnectTrigger.join => (delayedJoinConnect st id).1
  | ConnectTrigger.roster => (delayedRosterConnect st id).1

/-- `handleAnswer` (source lines 296-306): applies the answer as the remote
description when a connection for the sender exists, else does nothing.
Total function: the source wraps `setRemoteDescription` in try/catch, and the
absent-sender path runs no fallible operation at all. -/
def handleAnswer (st : Manager) (frm : String) (answer : SessionDesc) :
    Manager × List OutSignal :=
  match mapGet st.peerConnections frm with
  | some pc =>
      let pc2 : RTCPeerConnection := { pc with remoteDescription := some answer }
      ({ st with peerConnections := mapSet st.peerConnections frm pc2 }, [])
  | none => (st, [])

/-- `handleIceCandidate` (source lines 308-317): adds the candidate only when
a connection for the sender exists AND its remote description is already set;
in every other case the candidate is discarded — the class has no pending
candidate queue of any kind. -/
def handleIceCandidate (st : Manager) (frm : String) (candidate : Candidate) :
    Manager × List OutSignal :=
  match mapGet st.peerConnections frm with
  | some pc =>
      if pc.remoteDescription.isSome then
        let pc2 : RTCPeerConnection :=
          { pc with addedCandidates := pc.addedCandidates ++ [candidate] }
        ({ st with peerConnections := mapSet st.peerConnections frm pc2 }, [])
      else (st, [])
  | none => (st, [])

/-- A scheduled reconnect task: the target remote id and the backoff in ms. -/
structure ReconnectTask where
  target : String
  delayMs : Nat
deriving DecidableEq, Repr

/-- The `onconnectionstatechange` handler body (source lines 207-225), taking
the connection state it observes.  On `"failed"` it calls `pc.close()` on the
captured handle, deletes the peer-connection entry and schedules one
reconnect task with a 3000 ms backoff; `"disconnected"` and all other states
change nothing.  Note the handler touches neither `dataChannels` nor
`participants`. -/
def onconnectionstatechange (st : Manager) (remoteClientId : String)
    (observed : ConnState) : Manager × List ReconnectTask :=
  if observed = ConnState.Failed then
    ({ st with peerConnections := mapDelete st.peerConnections remoteClientId },
     [{ target := remoteClientId, delayMs := 3000 }])
  else (st, [])

/-- Body of the reconnect `setTimeout` (source lines 215-220): at fire time,
reconnect as initiator only if the participant is still listed and no
connection entry exists. -/
def fireReconnect (st : Manager) (id : String) : Manager × List OutSignal :=
  if mapHas st.participants id && !(mapHas st.peerConnections id) then
    createPeerConnection st id true
  else (st, [])

/-- Default display name derived from a client id prefix:
`"User " + clientId.slice(0, 8)`. -/
def defaultName (clientId : String) : String :=
  "User " ++ clientId.take 8

/-- `addParticipant` (source lines 97-110): rejects a falsy client id (the
empty string in this model), defaults a falsy display name, stores the entry
as connected.  The `notifyParticipantUpdate` side effect carries no state. -/
def addParticipant (st : Manager) (clientId : String) (displayName : String) : Manager :=
  if clientId = "" then st
  else
    let safeName := if displayName = "" then defaultName clientId else displayName
    let entry : Participant := ⟨clientId, safeName, true, none⟩
    { st with participants := mapSet st.participants clientId entry }

/-- The `user-joined` socket handler (source lines 44-55), excluding the
delayed connect task it schedules (modelled by `delayedJoinConnect`): insert
a participant only when the joining id differs from the local identity. -/
def onUserJoined (st : Manager) (clientId : String) (displayName : Option String) : Manager :=
  if clientId ≠ st.clientId then
    let dn := match displayName with
      | some s => if s = "" then defaultName clientId else s
      | none => defaultName clientId
    addParticipant st clientId dn
  else st

/-- `removeParticipant` (source lines 112-127): close and drop the connection
entry, the channel entry and the participant entry for the id. -/
def removeParticipant (st : Manager) (clientId : String) : Manager :=
  { st with
    peerConnections := mapDelete st.peerConnections clientId,
    dataChannels := mapDelete st.dataChannels clientId,
    participants := mapDelete st.participants clientId }

/-- One iteration of the `forEach` loop in `updateParticipantsList` (source
lines 137-147): insert the entry into the roster table only when its client
id is truthy (non-empty here) and differs from the local identity, with the
display name defaulted when falsy.  `localId` is `this.clientId`, which the
loop only reads. -/
def rosterInsert (localId : String) (ps : List (String × Participant))
    (p : String × Option String) : List (String × Participant) :=
  if p.1 ≠ "" ∧ p.1 ≠ localId then
    let safeName := match p.2 with
      | some s => if s = "" then defaultName p.1 else s
      | none => defaultName p.1
    mapSet ps p.1 ⟨p.1, safeName, true, none⟩
  else ps

/-- `updateParticipantsList` (source lines 129-149): clear the roster, then
run the insertion loop over the received entries.  An entry is a pair of the
received `clientId` and optional `displayName`. -/
def updateParticipantsList (st : Manager) (entries : List (String × Option String)) : Manager :=
  { st with participants := entries.foldl (rosterInsert st.clientId) [] }

/-- A roster-shaped socket event: an incremental `user-joined` or a full
`participants-list` snapshot. -/
inductive RosterEvent
  | userJoined (clientId : String) (displayName : Option String)
  | participantsList (entries : List (String × Option String))

/-- Dispatch one roster event to its handler. -/
def applyRosterEvent (st : Manager) : RosterEvent → Manager
  | RosterEvent.userJoined c d => onUserJoined st c d
  | RosterEvent.participantsList es => updateParticipantsList st es

/-!
File Transfer Engine (`sendFile`, source lines 464-527, and
`handleDataChannelMessage`, source lines 529-543).

`sendFile` runs across real time (a 10 ms pause between chunks), during which
the browser may change a channel's `readyState` and any individual
`dc.send` may throw.  The environment is therefore modelled per channel as a
`ChannelDyn`: `stateAt t` is the channel's `readyState` at logical step `t`
and `failsAt t` says whether a `send` attempted at step `t` throws (the
source catches such throws and continues).  Step 0 is call time — the moment
the `openChannels` snapshot is taken and the `file-info` envelope is sent —
and step `i + 1` is the moment chunk `i` is sent, after the `i`-th pause.
-/

/-- Time-indexed behaviour of one data channel during a `sendFile` call. -/
structure ChannelDyn where
  stateAt : Nat → DCState
  failsAt : Nat → Bool

/-- The `file-info` payload built by `sendFile` (source lines 482-490).
`mediaType` models the JS property named `type`. -/
structure FileInfo where
  id : String
  name : String
  mediaType : String
  size : Nat
  totalChunks : Nat
  sender : String
  timestamp : String
deriving DecidableEq, Repr

/-- One successful `dc.send` performed by `sendFile`: either a `file-info`
envelope or a `file-chunk` envelope, with the receiving channel's id. -/
inductive Sent
  | info (channel : String) (fi : FileInfo)
  | chunk (channel : String) (fileId : String) (chunkIndex : Nat)
      (totalChunks : Nat) (bytes : List Nat)
deriving DecidableEq, Repr

/-- Fixed chunk size: 16384 bytes (source line 479). -/
def chunkSize : Nat := 16384

/-- `Math.ceil(byteLength / chunkSize)` on naturals (source line 480). -/
def totalChunksOf (byteLength : Nat) : Nat :=
  (byteLength + (chunkSize - 1)) / chunkSize

/-- JS `ArrayBuffer.slice(start, stop)`: the bytes in `[start, stop)`. -/
def arraySlice (data : List Nat) (start stop : Nat) : List Nat :=
  (data.drop start).take (stop - start)

/-- Chunk `i` of a payload, exactly as sliced at source lines 503-505:
`fileData.slice(i*chunkSize, min(i*chunkSize + chunkSize, byteLength))`. -/
def chunkAt (data : List Nat) (i : Nat) : List Nat :=
  arraySlice data (i * chunkSize) (min (i * chunkSize + chunkSize) data.length)

/-- All chunks of a payload in index order. -/
def chunksOf (data : List Nat) : List (List Nat) :=
  (List.range (totalChunksOf data.length)).map (chunkAt data)

/-- `sendFile` (source lines 464-527).  Arguments: the manager's
`dataChannels` values each paired with its dynamic behaviour, the payload
bytes (the `ArrayBuffer` of the file; its length is the file size), and the
environment-supplied identifiers (`crypto.randomUUID()`, names, sender,
timestamp).  Returns the error thrown when no channel is open at call time,
or the ordered list of successful sends: the `file-info` envelope to each
snapshot channel whose send does not throw, then for each chunk index `i`
the `file-chunk` envelope to each snapshot channel still Open at step
`i + 1` whose send does not throw. -/
def sendFile (dataChannels : List (String × ChannelDyn)) (fileData : List Nat)
    (fileId fname ftype senderId timestamp : String) : Except String (List Sent) :=
  let openChannels := dataChannels.filter (fun c => decide (c.2.stateAt 0 = DCState.Open))
  let totalChannels := dataChannels.length
  if openChannels.length = 0 then
    Except.error ("No connected peers to send file to. Connected channels: "
      ++ toString openChannels.length ++ ", Open channels: " ++ toString totalChannels)
  else
    let totalChunks := totalChunksOf fileData.length
    let fileInfo : FileInfo :=
      ⟨fileId, fname, ftype, fileData.length, totalChunks, senderId, timestamp⟩
    let infoSends := (openChannels.filter (fun c => !(c.2.failsAt 0))).map
      (fun c => Sent.info c.1 fileInfo)
    let chunkSends := (List.range totalChunks).map (fun i =>
      (openChannels.filter
          (fun c => decide (c.2.stateAt (i + 1) = DCState.Open) && !(c.2.failsAt (i + 1)))).map
        (fun c => Sent.chunk c.1 fileId i totalChunks (chunkAt fileData i)))
    Except.ok (infoSends ++ chunkSends.flatten)

/-- A parsed data-channel envelope, as discriminated at source lines 533-539;
`other` covers unparseable input (the catch branch). -/
inductive DCMessage
  | fileInfo (fi : FileInfo)
  | fileChunk (fileId : String) (chunkIndex : Nat) (totalChunks : Nat) (bytes : List Nat)
  | other
deriving DecidableEq, Repr

/-- `handleDataChannelMessage` (source lines 529-543), returning the new
state together with the list of `onFileReceived` callback invocations it
performs.  The source discriminates the tag and then only logs: the comments
`// Handle file info` and `// Handle file chunk` stand where handling would
be.  No branch mutates any table and no branch invokes `onFileReceived`, so
every branch returns the state unchanged with no callback. -/
def handleDataChannelMessage (st : Manager) (msg : DCMessage) :
    Manager × List FileInfo :=
  match msg with
  | DCMessage.fileInfo _ => (st, [])
  | DCMessage.fileChunk _ _ _ _ => (st, [])
  | DCMessage.other => (st, [])

/-! Concrete states and channel behaviours used by the claim theorems. -/

/-- Concrete state for the early-candidate race: the local side "me" has a
connection for remote peer "b" whose remote description is not yet set
(an offer was sent, the answer has not arrived). -/
def pcAwaitingAnswer : RTCPeerConnection :=
  { localDescription := some "offer", remoteDescription := none, addedCandidates := [],
    connectionState := ConnState.Connecting, closed := false }

/-- Manager state with one pending link to "b" and "b" in the roster. -/
def stAwaitingAnswer : Manager :=
  ⟨"me", [("b", pcAwaitingAnswer)], [("b", newDataChannel)],
   [("b", ⟨"b", "User b", true, none⟩)]⟩

/-- The file-info payload of a one-chunk, one-byte transfer. -/
def fiOneByte : FileInfo := ⟨"f1", "a.txt", "text/plain", 1, 1, "s", "t"⟩

/-- A state in which "b" is in the roster but has no link yet (the moment
after a join event, before any delayed connect fired). -/
def stJoined : Manager := ⟨"me", [], [], [("b", ⟨"b", "User b", true, none⟩)]⟩

/-- Channel behaviour: Open at every step, never failing. -/
def dynAlwaysOpen : ChannelDyn := ⟨fun _ => DCState.Open, fun _ => false⟩

/-- Channel behaviour: still Connecting at call time (step 0), Open from the
first chunk send onwards, never failing. -/
def dynLateOpen : ChannelDyn :=
  ⟨fun t => if t = 0 then DCState.Connecting else DCState.Open, fun _ => false⟩

/-! Helper lemmas about the JS-Map model. -/

theorem mapGet_eq_none_of_not_has {α : Type} {m : List (String × α)} {k : String}
    (h : mapHas m k = false) : mapGet m k = none := by
  unfold mapHas at h
  cases hg : mapGet m k with
  | none => rfl
  | some v => rw [hg] at h; simp at h

theorem mapHas_eq_false_iff_countKey_zero {α : Type} (m : List (String × α)) (k : String) :
    mapHas m k = false ↔ countKey m k = 0 := by
  induction m with
  | nil => simp [mapHas, mapGet, countKey]
  | cons p m ih =>
      by_cases hp : p.1 = k
      · simp [mapHas, mapGet, countKey, hp]
      · simpa [mapHas, mapGet, countKey, hp] using ih

theorem mapHas_mapSet_self {α : Type} (m : List (String × α)) (k : String) (v : α) :
    mapHas (mapSet m k v) k = true := by
  induction m with
  | nil => simp [mapSet, mapHas, mapGet]
  | cons p m ih =>
      by_cases hp : p.1 = k
      · simp [mapSet, mapHas, mapGet, hp]
      · simpa [mapSet, mapHas, mapGet, hp] using ih

theorem countKey_mapSet_self {α : Type} (m : List (String × α)) (k : String) (v : α) :
    countKey (mapSet m k v) k = if mapHas m k then countKey m k else countKey m k + 1 := by
  induction m with
  | nil => simp [mapSet, mapHas, mapGet, countKey]
  | cons p m ih =>
      by_cases hp : p.1 = k
      · simp [mapSet, mapHas, mapGet, countKey, hp]
      · by_cases hh : mapHas m k
        · simpa [mapSet, mapHas, mapGet, countKey, hp, hh] using ih
        · simpa [mapSet, mapHas, mapGet, countKey, hp, hh] using ih

theorem mapGet_mapSet_ne {α : Type} (m : List (String × α)) {k k' : String} (v : α)
    (hne : k ≠ k') : mapGet (mapSet m k v) k' = mapGet m k' := by
  induction m with
  | nil => simp [mapSet, mapGet, hne]
  | cons p m ih =>
      by_cases hp : p.1 = k
      · simp [mapSet, mapGet, hp, hne]
      · by_cases hq : p.1 = k'
        · simp [mapSet, mapGet, hp, hq, Ne.symm hne]
        · simpa [mapSet, mapGet, hp, hq] using ih

theorem mapHas_mapSet_ne {α : Type} (m : List (String × α)) {k k' : String} (v : α)
    (hne : k ≠ k') : mapHas (mapSet m k v) k' = mapHas m k' := by
  unfold mapHas
  rw [mapGet_mapSet_ne m v hne]

/-! Theorems settling the claims. -/

/-- C1: the claim says an ICE candidate arriving before the remote
description is buffered in a per-link pending queue and applied as soon as a
remote description is applied.  The code refutes this: `handleIceCandidate`
leaves the entire manager state unchanged when `pc.remoteDescription` is
unset (the class has no pending-candidate field at all), and after the
answer is subsequently applied by `handleAnswer`, the connection's list of
added candidates is still empty — the early candidate is permanently lost. -/
theorem early_candidate_permanently_dropped :
    (handleIceCandidate stAwaitingAnswer "b" "cand1").1 = stAwaitingAnswer ∧
    ((mapGet ((handleAnswer (handleIceCandidate stAwaitingAnswer "b" "cand1").1
        "b" "answer").1.peerConnections) "b").map RTCPeerConnection.addedCandidates)
      = some [] := by
  exact ⟨by decide, by decide⟩

/-- C2: the claim says that after the file-info envelope and every chunk
envelope are delivered, the receive path reassembles the payload, invokes
the `onFileReceived` callback and discards the transfer entry.  The code
refutes this: `handleDataChannelMessage` only logs; delivering the complete
one-chunk transfer changes no state and performs zero callback invocations
(the class keeps no incoming-transfer state that could be reassembled). -/
theorem receive_path_never_completes :
    handleDataChannelMessage stAwaitingAnswer (DCMessage.fileInfo fiOneByte)
      = (stAwaitingAnswer, []) ∧
    handleDataChannelMessage stAwaitingAnswer (DCMessage.fileChunk "f1" 0 1 [42])
      = (stAwaitingAnswer, []) :=
  ⟨rfl, rfl⟩

/-- C4: with zero transports Open at call time, `sendFile` fails
synchronously with the error naming the count of eligible recipients
(`0`), and the failure is computed without reading the payload: the result
is identical for any two payloads. -/
theorem sendFile_zero_open_fails_before_chunking
    (dataChannels : List (String × ChannelDyn)) (fileData fileData' : List Nat)
    (fileId fname ftype senderId timestamp : String)
    (h : (dataChannels.filter (fun c => decide (c.2.stateAt 0 = DCState.Open))).length = 0) :
    sendFile dataChannels fileData fileId fname ftype senderId timestamp =
      Except.error ("No connected peers to send file to. Connected channels: "
        ++ toString (0 : Nat) ++ ", Open channels: " ++ toString dataChannels.length) ∧
    sendFile dataChannels fileData fileId fname ftype senderId timestamp =
      sendFile dataChannels fileData' fileId fname ftype senderId timestamp := by
  constructor <;> simp [sendFile, h]

/-- Witness for C4 at a concrete input: no channels at all, two different
payloads. -/
theorem sendFile_zero_open_fails_before_chunking_witness :
    sendFile ([] : List (String × ChannelDyn)) [] "f" "n" "t" "s" "ts" =
      Except.error ("No connected peers to send file to. Connected channels: "
        ++ toString (0 : Nat) ++ ", Open channels: "
        ++ toString ([] : List (String × ChannelDyn)).length) ∧
    sendFile ([] : List (String × ChannelDyn)) [] "f" "n" "t" "s" "ts" =
      sendFile ([] : List (String × ChannelDyn)) [1] "f" "n" "t" "s" "ts" :=
  sendFile_zero_open_fails_before_chunking [] [] [1] "f" "n" "t" "s" "ts" (by decide)

/-- C5: on a transition to the Failed state the handler schedules exactly
one reconnect task, with the fixed 3000 ms backoff, targeting that remote
id; a reconnect task that fires after the participant left is a no-op, and
one that fires with the participant present and no link existing performs
exactly the initiator-role connect. -/
theorem failed_schedules_exactly_one_reconnect (st : Manager) (id : String) :
    (onconnectionstatechange st id ConnState.Failed).2 = [{ target := id, delayMs := 3000 }] ∧
    (∀ st' : Manager, mapHas st'.participants id = false → fireReconnect st' id = (st', [])) ∧
    (∀ st' : Manager, mapHas st'.participants id = true →
      mapHas st'.peerConnections id = false →
      fireReconnect st' id = createPeerConnection st' id true) := by
  refine ⟨rfl, ?_, ?_⟩
  · intro st' h
    simp [fireReconnect, h]
  · intro st' h1 h2
    simp [fireReconnect, h1, h2]

/-- Witness for C5 at concrete inputs: the Failed handler on the live-link
state schedules the single 3000 ms task, and a reconnect task firing on a
state whose roster no longer lists "b" does nothing. -/
theorem failed_schedules_exactly_one_reconnect_witness :
    (onconnectionstatechange stAwaitingAnswer "b" ConnState.Failed).2
      = [{ target := "b", delayMs := 3000 }] ∧
    fireReconnect ⟨"me", [], [], []⟩ "b" = (⟨"me", [], [], []⟩, []) :=
  ⟨(failed_schedules_exactly_one_reconnect stAwaitingAnswer "b").1,
   (failed_schedules_exactly_one_reconnect stAwaitingAnswer "b").2.1
     ⟨"me", [], [], []⟩ (by decide)⟩

/-- C6 counterexample: the claim says the Failed handler closes and removes
the connection, the data-channel transport and any pending candidate queue.
On the concrete live-link state for "b", after the handler runs the
data-channel table still holds the entry for "b" — the transport is not
removed (and the class has no pending candidate queue to remove). -/
theorem failed_handler_keeps_transport_entry :
    mapHas ((onconnectionstatechange stAwaitingAnswer "b" ConnState.Failed).1.dataChannels)
      "b" = true := by decide

/-- C6 amended: on a transition to Failed the handler removes (and closes)
exactly the peer-connection entry; the data-channel table and the
participant table are left untouched. -/
theorem failed_handler_cleanup_scope (st : Manager) (id : String) :
    (onconnectionstatechange st id ConnState.Failed).1.peerConnections
      = mapDelete st.peerConnections id ∧
    (onconnectionstatechange st id ConnState.Failed).1.dataChannels = st.dataChannels ∧
    (onconnectionstatechange st id ConnState.Failed).1.participants = st.participants :=
  ⟨rfl, rfl, rfl⟩

/-- C10: an inbound answer or ICE candidate from a sender with no entry in
the peer-connection table is a silent no-op: both handlers return (they
run no fallible operation on this path), emit no outbound signal, and
leave the manager state — connections, channels, participants, local id —
unchanged. -/
theorem unknown_sender_signals_are_noops (st : Manager) (frm : String)
    (answer : SessionDesc) (candidate : Candidate)
    (h : mapHas st.peerConnections frm = false) :
    handleAnswer st frm answer = (st, []) ∧
    handleIceCandidate st frm candidate = (st, []) := by
  have hg : mapGet st.peerConnections frm = none := mapGet_eq_none_of_not_has h
  exact ⟨by simp [handleAnswer, hg], by simp [handleIceCandidate, hg]⟩

/-- Witness for C10 at a concrete input: empty peer-connection table. -/
theorem unknown_sender_signals_are_noops_witness :
    handleAnswer ⟨"me", [], [], []⟩ "x" "ans" = (⟨"me", [], [], []⟩, []) ∧
    handleIceCandidate ⟨"me", [], [], []⟩ "x" "cand" = (⟨"me", [], [], []⟩, []) :=
  unknown_sender_signals_are_noops ⟨"me", [], [], []⟩ "x" "ans" "cand" (by decide)

/-! Roster invariant (C9). -/

theorem rosterInsert_foldl_no_local (localId : String) :
    ∀ (entries : List (String × Option String)) (ps : List (String × Participant)),
      mapHas ps localId = false →
      mapHas (entries.foldl (rosterInsert localId) ps) localId = false := by
  intro entries
  induction entries with
  | nil => intro ps h; exact h
  | cons p rest ih =>
      intro ps h
      simp only [List.foldl_cons]
      apply ih
      unfold rosterInsert
      by_cases hcond : p.1 ≠ "" ∧ p.1 ≠ localId
      · rw [if_pos hcond, mapHas_mapSet_ne _ _ hcond.2]
        exact h
      · rw [if_neg hcond]
        exact h

theorem applyRosterEvent_preserves_no_local (st : Manager) (e : RosterEvent)
    (h : mapHas st.participants st.clientId = false) :
    (applyRosterEvent st e).clientId = st.clientId ∧
    mapHas (applyRosterEvent st e).participants st.clientId = false := by
  cases e with
  | userJoined c d =>
      simp only [applyRosterEvent, onUserJoined]
      by_cases hc : c ≠ st.clientId
      · rw [if_pos hc]
        unfold addParticipant
        by_cases hce : c = ""
        · rw [if_pos hce]
          exact ⟨rfl, h⟩
        · rw [if_neg hce]
          refine ⟨rfl, ?_⟩
          rw [mapHas_mapSet_ne _ _ hc]
          exact h
      · rw [if_neg hc]
        exact ⟨rfl, h⟩
  | participantsList es =>
      exact ⟨rfl, rosterInsert_foldl_no_local st.clientId es [] rfl⟩

/-- C9: for every sequence of roster snapshots and join events, the
participants table never holds an entry keyed by the local identity:
`updateParticipantsList` skips entries equal to the local id when it
rebuilds the roster, and the `user-joined` handler inserts only when the
joining id differs from the local identity. -/
theorem no_local_participant_entry (st : Manager) (evs : List RosterEvent)
    (h : mapHas st.participants st.clientId = false) :
    mapHas (evs.foldl applyRosterEvent st).participants
      (evs.foldl applyRosterEvent st).clientId = false := by
  induction evs generalizing st with
  | nil => exact h
  | cons e rest ih =>
      simp only [List.foldl_cons]
      obtain ⟨h1, h2⟩ := applyRosterEvent_preserves_no_local st e h
      exact ih (applyRosterEvent st e) (by rw [h1]; exact h2)

/-- Witness for C9 at a concrete input: a join for "b" followed by a roster
snapshot that even names the local id "me" never puts "me" in the table. -/
theorem no_local_participant_entry_witness :
    mapHas (([RosterEvent.userJoined "b" none,
        RosterEvent.participantsList [("me", none), ("c", some "C")]].foldl
        applyRosterEvent ⟨"me", [], [], []⟩).participants)
      (([RosterEvent.userJoined "b" none,
        RosterEvent.participantsList [("me", none), ("c", some "C")]].foldl
        applyRosterEvent ⟨"me", [], [], []⟩).clientId) = false :=
  no_local_participant_entry ⟨"me", [], [], []⟩
    [RosterEvent.userJoined "b" none,
     RosterEvent.participantsList [("me", none), ("c", some "C")]] rfl

/-! Peer-link uniqueness (C3). -/

theorem createPeerConnection_noop (st : Manager) (id : String) (b : Bool)
    (h : mapHas st.peerConnections id = true) :
    createPeerConnection st id b = (st, []) := by
  simp [createPeerConnection, h]

theorem createPeerConnection_participants (st : Manager) (id : String) (b : Bool) :
    (createPeerConnection st id b).1.participants = st.participants := by
  unfold createPeerConnection
  split_ifs <;> rfl

theorem createPeerConnection_creates (st : Manager) (id : String) (b : Bool)
    (h : mapHas st.peerConnections id = false) :
    countKey (createPeerConnection st id b).1.peerConnections id =
      countKey st.peerConnections id + 1 := by
  cases b <;>
    simp [createPeerConnection, h, countKey_mapSet_self, mapHas_mapSet_self]

theorem fireTrigger_stable (st : Manager) (id : String) (t : ConnectTrigger)
    (h : mapHas st.peerConnections id = true) :
    fireTrigger id st t = st := by
  cases t with
  | join => simp [fireTrigger, delayedJoinConnect, h]
  | roster => simp [fireTrigger, delayedRosterConnect, h]

theorem fireTrigger_first (st : Manager) (id : String) (t : ConnectTrigger)
    (h0 : mapHas st.peerConnections id = false)
    (hp : mapHas st.participants id = true) :
    fireTrigger id st t = (createPeerConnection st id true).1 := by
  cases t with
  | join => simp [fireTrigger, delayedJoinConnect, h0]
  | roster => simp [fireTrigger, delayedRosterConnect, h0, hp]

theorem foldl_fireTrigger_stable (id : String) (ts : List ConnectTrigger) :
    ∀ st : Manager, countKey st.peerConnections id = 1 →
      countKey ((ts.foldl (fireTrigger id) st).peerConnections) id = 1 := by
  induction ts with
  | nil => intro st h; exact h
  | cons t rest ih =>
      intro st h
      have hh : mapHas st.peerConnections id = true := by
        cases hb : mapHas st.peerConnections id
        · have := (mapHas_eq_false_iff_countKey_zero st.peerConnections id).mp hb
          omega
        · rfl
      simp only [List.foldl_cons]
      rw [fireTrigger_stable st id t hh]
      exact ih st h

/-- C3: concurrent connect triggers for the same remote id resolve to
exactly one peer-connection entry.  Starting from a state with no entry for
`id` and `id` present in the roster, firing any nonempty interleaving of
delayed join-connect and roster-connect tasks for `id` leaves exactly one
entry for `id` in the table; and `createPeerConnection` is a no-op (state
and signals) whenever an entry for the id already exists. -/
theorem at_most_one_peer_link (st : Manager) (id : String) (ts : List ConnectTrigger)
    (h0 : countKey st.peerConnections id = 0)
    (hp : mapHas st.participants id = true) (hne : ts ≠ []) :
    countKey ((ts.foldl (fireTrigger id) st).peerConnections) id = 1 ∧
    ∀ (st' : Manager) (b : Bool), mapHas st'.peerConnections id = true →
      createPeerConnection st' id b = (st', []) := by
  refine ⟨?_, fun st' b h => createPeerConnection_noop st' id b h⟩
  cases ts with
  | nil => exact absurd rfl hne
  | cons t rest =>
      have h0' : mapHas st.peerConnections id = false :=
        (mapHas_eq_false_iff_countKey_zero _ _).mpr h0
      simp only [List.foldl_cons]
      rw [fireTrigger_first st id t h0' hp]
      apply foldl_fireTrigger_stable
      rw [createPeerConnection_creates st id true h0', h0]

/-- Witness for C3 at a concrete input: a join-connect task and a
roster-connect task both fire for "b"; exactly one entry results, and the
guarded constructor is a no-op on a state that already has the link. -/
theorem at_most_one_peer_link_witness :
    countKey ((([ConnectTrigger.join, ConnectTrigger.roster]).foldl
        (fireTrigger "b") stJoined).peerConnections) "b" = 1 ∧
    createPeerConnection stAwaitingAnswer "b" true = (stAwaitingAnswer, []) :=
  ⟨(at_most_one_peer_link stJoined "b" [ConnectTrigger.join, ConnectTrigger.roster]
      (by decide) (by decide) (by decide)).1,
   (at_most_one_peer_link stJoined "b" [ConnectTrigger.join, ConnectTrigger.roster]
      (by decide) (by decide) (by decide)).2 stAwaitingAnswer true (by decide)⟩

/-! Chunking arithmetic (C8). -/

theorem chunkAt_length (data : List Nat) (i : Nat) :
    (chunkAt data i).length = min chunkSize (data.length - i * chunkSize) := by
  simp only [chunkAt, arraySlice, List.length_take, List.length_drop, chunkSize]
  omega

theorem chunkAt_eq_drop_take (data : List Nat) (i : Nat) :
    chunkAt data i = (data.drop (i * chunkSize)).take chunkSize := by
  unfold chunkAt arraySlice
  rcases le_or_lt (i * chunkSize + chunkSize) data.length with h | h
  · have he : min (i * chunkSize + chunkSize) data.length - i * chunkSize = chunkSize := by
      omega
    rw [he]
  · have he : min (i * chunkSize + chunkSize) data.length - i * chunkSize
        = data.length - i * chunkSize := by omega
    rw [he, List.take_of_length_le (by simp), List.take_of_length_le (by simp; omega)]

theorem flatten_chunks_aux :
    ∀ (m : Nat) (data : List Nat), data.length ≤ m * chunkSize →
      ((List.range m).map (fun i => (data.drop (i * chunkSize)).take chunkSize)).flatten
        = data := by
  intro m
  induction m with
  | zero =>
      intro data h
      simp only [Nat.zero_mul, Nat.le_zero, List.length_eq_zero] at h
      simp [h]
  | succ m ih =>
      intro data h
      rw [List.range_succ_eq_map, List.map_cons, List.flatten_cons]
      have hmap : ((List.range m).map Nat.succ).map
            (fun i => (data.drop (i * chunkSize)).take chunkSize)
          = (List.range m).map
            (fun i => ((data.drop chunkSize).drop (i * chunkSize)).take chunkSize) := by
        rw [List.map_map]
        apply List.map_congr_left
        intro i _
        simp only [Function.comp_apply, List.drop_drop]
        rw [Nat.succ_mul, Nat.add_comm (i * chunkSize) chunkSize]
      rw [hmap, ih (data.drop chunkSize)
        (by simp only [List.length_drop, chunkSize] at h ⊢; omega)]
      simp only [Nat.zero_mul, List.drop_zero]
      exact List.take_append_drop chunkSize data

theorem chunksOf_flatten (data : List Nat) : (chunksOf data).flatten = data := by
  unfold chunksOf
  have hcongr : (List.range (totalChunksOf data.length)).map (chunkAt data)
      = (List.range (totalChunksOf data.length)).map
        (fun i => (data.drop (i * chunkSize)).take chunkSize) :=
    List.map_congr_left (fun i _ => chunkAt_eq_drop_take data i)
  rw [hcongr]
  apply flatten_chunks_aux
  simp only [totalChunksOf, chunkSize]
  omega

/-- C8: `sendFile` computes `totalChunks = ceil(size / 16384)` and slices
the payload so that every chunk but the last is exactly 16384 bytes, the
last carries the remainder, and the chunks concatenate back to the payload;
in particular a 16400-byte payload yields 2 chunks of sizes 16384 and 16. -/
theorem sendFile_chunk_sizes (data : List Nat) :
    (chunksOf data).length = totalChunksOf data.length ∧
    (∀ i, i + 1 < totalChunksOf data.length → (chunkAt data i).length = chunkSize) ∧
    (∀ i, i + 1 = totalChunksOf data.length →
      (chunkAt data i).length = data.length - i * chunkSize) ∧
    (chunksOf data).flatten = data ∧
    totalChunksOf 16400 = 2 ∧
    (chunksOf (List.replicate 16400 0)).map List.length = [16384, 16] := by
  refine ⟨by simp [chunksOf], ?_, ?_, chunksOf_flatten data, by decide, ?_⟩
  · intro i hi
    rw [chunkAt_length]
    simp only [totalChunksOf, chunkSize] at hi ⊢
    omega
  · intro i hi
    rw [chunkAt_length]
    simp only [totalChunksOf, chunkSize] at hi ⊢
    omega
  · have hlen : (List.replicate 16400 (0 : Nat)).length = 16400 := by
      rw [List.length_replicate]
    unfold chunksOf
    rw [hlen]
    rw [(by decide : totalChunksOf 16400 = 2), (by decide : List.range 2 = [0, 1])]
    simp only [List.map_cons, List.map_nil, chunkAt_length, hlen, chunkSize]
    norm_num

/-- Witness for C8 at a concrete input: for the 16400-byte payload, chunk 0
is a full 16384-byte slice and chunk 1 carries the 16-byte remainder. -/
theorem sendFile_chunk_sizes_witness :
    (chunkAt (List.replicate 16400 (0 : Nat)) 0).length = chunkSize ∧
    (chunkAt (List.replicate 16400 (0 : Nat)) 1).length
      = (List.replicate 16400 (0 : Nat)).length - 1 * chunkSize :=
  ⟨(sendFile_chunk_sizes (List.replicate 16400 0)).2.1 0
      (by rw [List.length_replicate]; decide),
   (sendFile_chunk_sizes (List.replicate 16400 0)).2.2.1 1
      (by rw [List.length_replicate]; decide)⟩

/-! Per-chunk broadcast gating (C7). -/

/-- C7 counterexample: the claim says each chunk envelope is sent to every
transport that is Open at the time that chunk is sent.  Channel "b" is Open
at step 1, the moment chunk 0 is sent, yet `sendFile` delivers chunk 0 only
to "a": the source snapshots its `openChannels` list once at call time, so a
channel that opens mid-transfer never receives anything. -/
theorem chunk_not_sent_to_late_open_channel :
    dynLateOpen.stateAt 1 = DCState.Open ∧
    sendFile [("a", dynAlwaysOpen), ("b", dynLateOpen)] [1] "f" "n" "t" "s" "ts"
      = Except.ok [Sent.info "a" ⟨"f", "n", "t", 1, 1, "s", "ts"⟩,
          Sent.chunk "a" "f" 0 1 [1]] ∧
    Sent.chunk "b" "f" 0 1 (chunkAt [1] 0)
      ∉ [Sent.info "a" ⟨"f", "n", "t", 1, 1, "s", "ts"⟩,
          Sent.chunk "a" "f" 0 1 [1]] := by
  refine ⟨rfl, rfl, by decide⟩

/-- C7 amended: assuming distinct channel ids and at least one channel Open
at call time, `sendFile` succeeds and delivers chunk `i` to channel `c`
exactly when `c` was Open at call time (the snapshot gate), is still Open at
the moment chunk `i` is sent, and its send does not throw at that moment.
In particular a channel that closes mid-transfer receives no further chunks,
no chunk goes to a channel that is not Open when it is sent, and whether one
channel's send throws or its state changes never affects delivery to the
others nor the success of the overall call. -/
theorem sendFile_chunk_delivery
    (dataChannels : List (String × ChannelDyn)) (fileData : List Nat)
    (fileId fname ftype senderId timestamp : String)
    (hnd : (dataChannels.map Prod.fst).Nodup)
    (hopen : ¬ (dataChannels.filter
        (fun c => decide (c.2.stateAt 0 = DCState.Open))).length = 0) :
    ∃ sends : List Sent,
      sendFile dataChannels fileData fileId fname ftype senderId timestamp
        = Except.ok sends ∧
      ∀ c ∈ dataChannels, ∀ i < totalChunksOf fileData.length,
        (Sent.chunk c.1 fileId i (totalChunksOf fileData.length) (chunkAt fileData i)
            ∈ sends ↔
          (c.2.stateAt 0 = DCState.Open ∧ c.2.stateAt (i + 1) = DCState.Open ∧
            c.2.failsAt (i + 1) = false)) := by
  simp only [sendFile]
  rw [if_neg hopen]
  refine ⟨_, rfl, ?_⟩
  intro c hc i hi
  constructor
  · intro hmem
    rw [List.mem_append] at hmem
    rcases hmem with hmem | hmem
    · rw [List.mem_map] at hmem
      obtain ⟨c', -, habs⟩ := hmem
      exact absurd habs (by simp)
    · rw [List.mem_flatten] at hmem
      obtain ⟨l, hl, hml⟩ := hmem
      rw [List.mem_map] at hl
      obtain ⟨j, hj, rfl⟩ := hl
      rw [List.mem_map] at hml
      obtain ⟨c', hc', heq⟩ := hml
      rw [Sent.chunk.injEq] at heq
      obtain ⟨hkey, -, hji, -, -⟩ := heq
      rw [List.mem_filter] at hc'
      obtain ⟨hc'snap, hc'cond⟩ := hc'
      rw [List.mem_filter] at hc'snap
      obtain ⟨hc'mem, hc'open⟩ := hc'snap
      have hcc : c' = c := List.inj_on_of_nodup_map hnd hc'mem hc hkey
      subst hcc
      subst hji
      rw [Bool.and_eq_true, decide_eq_true_eq] at hc'cond
      rw [decide_eq_true_eq] at hc'open
      refine ⟨hc'open, hc'cond.1, ?_⟩
      have := hc'cond.2
      simpa using this
  · rintro ⟨hs0, hsi, hfi⟩
    rw [List.mem_append]
    right
    rw [List.mem_flatten]
    refine ⟨_, List.mem_map.mpr ⟨i, List.mem_range.mpr hi, rfl⟩, ?_⟩
    rw [List.mem_map]
    refine ⟨c, ?_, rfl⟩
    rw [List.mem_filter]
    exact ⟨List.mem_filter.mpr ⟨hc, by simp [hs0]⟩, by simp [hsi, hfi]⟩

/-- Witness for C7-amended at a concrete input: one always-open channel and
a one-byte payload. -/
theorem sendFile_chunk_delivery_witness :
    ∃ sends : List Sent,
      sendFile [("a", dynAlwaysOpen)] [1] "f" "n" "t" "s" "ts" = Except.ok sends ∧
      ∀ c ∈ [("a", dynAlwaysOpen)], ∀ i < totalChunksOf ([1] : List Nat).length,
        (Sent.chunk c.1 "f" i (totalChunksOf ([1] : List Nat).length)
            (chunkAt [1] i) ∈ sends ↔
          (c.2.stateAt 0 = DCState.Open ∧ c.2.stateAt (i + 1) = DCState.Open ∧
            c.2.failsAt (i + 1) = false)) :=
  sendFile_chunk_delivery [("a", dynAlwaysOpen)] [1] "f" "n" "t" "s" "ts"
    (by decide) (by decide)

end Echo
